import Mathlib

/-!
Verification development for the `reposcape` repository.

The Python sources are shallowly embedded below:

* `reposcape/models` (node tree model) as `NodeType`, `DetailLevel`, `CodeNode`;
* `reposcape/serializers/{base,tree,compact,markdown}.py` as
  `shouldIncludeNode`, `mdShouldIncludeNode`, `sortChildren` and the
  `treeNode`/`cpNode`/`mdNode` traversals;
* `reposcape/importance/graph.py` (on top of a model of the external
  `rustworkx.PyDiGraph`) as `PyDiGraph` and `RustworkxGraph`;
* `reposcape/importance/scoring.py` as `normalizeScores`, `rawScore`,
  `scoreEnum` and `score`.

Python `float` values are modelled as exact rationals (`ℚ`).  The weight
constants `0.5`, `1.0`, `2.0` are dyadic, hence exact in both arithmetics;
the thresholds `0.3` and `0.7` are read as the exact decimals written in the
code, and every concrete comparison in the theorems below is far from those
boundaries, so the double and rational comparisons agree there.  The
rational model erases IEEE-754 rounding, so no theorem below asserts a
property whose truth depends on float rounding or on float accumulation
order (see the C8 discussion in the results).
The token estimator `reposcape.utils.tokens.count_tokens` is an external
collaborator (tiktoken); it is treated as an arbitrary parameter
`est : String → ℕ`, which is faithful to any size estimator returning a
non-negative integer.
-/

namespace Reposcape

/-- `reposcape.models.nodes.NodeType` (variants read off from the serializers'
`match` statements; the module itself is the out-of-scope node tree model.
Modelled from the spec: kind is one of Directory, File, Class, Function,
Method, Variable). -/
inductive NodeType where
  | DIRECTORY
  | FILE
  | CLASS
  | FUNCTION
  | METHOD
  | VARIABLE
deriving DecidableEq, Repr

/-- `reposcape.models.options.DetailLevel`.
Modelled from the spec: Structure < Signatures < Docstrings < FullCode. -/
inductive DetailLevel where
  | STRUCTURE
  | SIGNATURES
  | DOCSTRINGS
  | FULL_CODE
deriving DecidableEq, Repr

/-- `reposcape.models.nodes.CodeNode`, with exactly the fields the serializers
read.  `children` is a Python `dict[str, CodeNode]` (insertion ordered, keys
are the children's names); it is modelled as the insertion-ordered list of its
values.  Optional text payloads are `Option String`, `none` playing the role
of Python `None`.  `importance` is a float in `[0,1]`, modelled as `ℚ`.
Modelled from the spec: name, kind, path, docstring/signature/content,
children mapping, importance. -/
inductive CodeNode where
  | mk (name : String) (node_type : NodeType) (path : String)
       (importance : ℚ)
       (signature : Option String) (docstring : Option String)
       (content : Option String)
       (children : List CodeNode)
deriving Repr

def CodeNode.name : CodeNode → String
  | .mk n _ _ _ _ _ _ _ => n

def CodeNode.node_type : CodeNode → NodeType
  | .mk _ t _ _ _ _ _ _ => t

def CodeNode.path : CodeNode → String
  | .mk _ _ p _ _ _ _ _ => p

def CodeNode.importance : CodeNode → ℚ
  | .mk _ _ _ i _ _ _ _ => i

def CodeNode.signature : CodeNode → Option String
  | .mk _ _ _ _ s _ _ _ => s

def CodeNode.docstring : CodeNode → Option String
  | .mk _ _ _ _ _ d _ _ => d

def CodeNode.content : CodeNode → Option String
  | .mk _ _ _ _ _ _ c _ => c

def CodeNode.children : CodeNode → List CodeNode
  | .mk _ _ _ _ _ _ _ cs => cs

/-- Python truthiness of an optional string (`if node.signature:`):
`None` and the empty string are falsy. -/
def strTruthy : Option String → Bool
  | none => false
  | some s => s ≠ ""

/-- `LOW_IMPORTANCE_THRESHOLD` in `serializers/base.py`. -/
def LOW_IMPORTANCE_THRESHOLD : ℚ := 3 / 10

/-- `HIGH_IMPORTANCE_THRESHOLD` in `serializers/base.py`. -/
def HIGH_IMPORTANCE_THRESHOLD : ℚ := 7 / 10

/-- The `max_depth is not None and current_depth > max_depth` guard shared by
both inclusion predicates. -/
def maxDepthExceeded : Option ℕ → ℕ → Bool
  | some m, d => d > m
  | none, _ => false

/-- `CodeSerializer._should_include_node` in `serializers/base.py` (the
predicate used by the tree and compact serializers). -/
def shouldIncludeNode (node : CodeNode) (current_depth : ℕ)
    (max_depth : Option ℕ) : Bool :=
  if maxDepthExceeded max_depth current_depth then false
  else if node.importance > HIGH_IMPORTANCE_THRESHOLD then true
  else !(decide (current_depth > 2) && decide (node.importance < LOW_IMPORTANCE_THRESHOLD))

/-- `MarkdownSerializer._should_include_node` in `serializers/markdown.py`:
like the base predicate but with an unconditional branch for directories and
files. -/
def mdShouldIncludeNode (node : CodeNode) (current_depth : ℕ)
    (max_depth : Option ℕ) : Bool :=
  if maxDepthExceeded max_depth current_depth then false
  else if node.node_type = NodeType.DIRECTORY ∨ node.node_type = NodeType.FILE then true
  else if node.importance > HIGH_IMPORTANCE_THRESHOLD then true
  else !(decide (current_depth > 2) && decide (node.importance < LOW_IMPORTANCE_THRESHOLD))

/-- The comparison realising Python's
`sorted(node.children.values(), key=lambda n: (-n.importance, n.name))`:
`childLe a b` holds when the sort key of `a` is at most the sort key of `b`,
i.e. descending importance with ties broken by ascending name. -/
def childLe (a b : CodeNode) : Bool :=
  decide (b.importance < a.importance) ||
    (decide (a.importance = b.importance) && decide (a.name ≤ b.name))

/-- The sorted children list every serializer iterates over.  Python's
`sorted` is a stable sort; `List.mergeSort` is stable as well, so the two
agree on every input (the tie-breaking key makes the order total anyway). -/
def sortChildren (l : List CodeNode) : List CodeNode :=
  l.mergeSort childLe

/-- `sig.replace("\n", " ").replace("    ", "")` used by the tree and compact
serializers when rendering a signature. -/
def sigCompact (s : String) : String :=
  (s.replace "\n" " ").replace "    " ""

/-- `f"```python\n{s}\n```"` blocks used by the markdown serializer. -/
def pyBlock (s : String) : String :=
  "```python\n" ++ s ++ "\n```"

theorem sizeOf_of_perm {α : Type} [SizeOf α] :
    ∀ {l₁ l₂ : List α}, l₁.Perm l₂ → sizeOf l₁ = sizeOf l₂ := by
  intro l₁ l₂ h
  induction h with
  | nil => rfl
  | cons x _ ih => simp only [List.cons.sizeOf_spec]; omega
  | swap x y l => simp only [List.cons.sizeOf_spec]; omega
  | trans _ _ ih₁ ih₂ => omega

theorem sizeOf_sortChildren (l : List CodeNode) :
    sizeOf (sortChildren l) = sizeOf l :=
  sizeOf_of_perm (List.mergeSort_perm l childLe)

theorem sizeOf_children_lt (n : CodeNode) : sizeOf n.children < sizeOf n := by
  cases n; simp only [CodeNode.children, CodeNode.mk.sizeOf_spec]; omega

theorem sizeOf_mem_children {c : CodeNode} {l : List CodeNode}
    (h : c ∈ l) : sizeOf c < sizeOf l :=
  List.sizeOf_lt_of_mem h

/-! ### Tree serializer (`serializers/tree.py`)

`treeNode` embeds `TreeSerializer._serialize_node`; it returns the list of
lines appended and the `tokens_used` return value.  `treeKids` embeds the
`for i, child in enumerate(children)` loop with its budget bookkeeping and
early `break`. -/

mutual

def treeNode (est : String → ℕ) (detail : DetailLevel) (maxDepth : Option ℕ)
    (node : CodeNode) (isLast : List Bool) (remaining : Option ℤ) :
    List String × ℤ :=
  if ¬ shouldIncludeNode node (isLast.length - 1) maxDepth then ([], 0) else
  let pfx : String :=
    if isLast.length = 1 then ""
    else
      String.join (((isLast.drop 1).dropLast).map
          (fun last => if last then "    " else "│   "))
        ++ (if isLast.getLastD true then "└── " else "├── ")
  let line : String :=
    match node.node_type with
    | .DIRECTORY => pfx ++ node.name ++ "/"
    | .FILE => pfx ++ node.name
    | _ =>
        if detail ≠ DetailLevel.STRUCTURE ∧ strTruthy node.signature then
          pfx ++ sigCompact (node.signature.getD "")
        else pfx ++ node.name
  let used : ℤ := (est line : ℤ)
  match remaining with
  | some r =>
      if r - used ≤ 0 then ([], used)
      else
        let res := treeKids est detail maxDepth (sortChildren node.children)
          isLast (some (r - used))
        (line :: res.1, used + res.2)
  | none =>
      let res := treeKids est detail maxDepth (sortChildren node.children)
        isLast none
      (line :: res.1, used + res.2)
termination_by sizeOf node
decreasing_by
  all_goals rw [sizeOf_sortChildren]; exact sizeOf_children_lt node

def treeKids (est : String → ℕ) (detail : DetailLevel) (maxDepth : Option ℕ) :
    List CodeNode → List Bool → Option ℤ → List String × ℤ
  | [], _, _ => ([], 0)
  | c :: rest, isLast, remaining =>
      let r1 := treeNode est detail maxDepth c (isLast ++ [rest.isEmpty]) remaining
      match remaining with
      | some r =>
          if r - r1.2 ≤ 0 then (r1.1, r1.2)
          else
            let r2 := treeKids est detail maxDepth rest isLast (some (r - r1.2))
            (r1.1 ++ r2.1, r1.2 + r2.2)
      | none =>
          let r2 := treeKids est detail maxDepth rest isLast none
          (r1.1 ++ r2.1, r1.2 + r2.2)
termination_by l => sizeOf l
decreasing_by
  all_goals simp only [List.cons.sizeOf_spec]; omega

end

/-- `TreeSerializer.serialize`. -/
def treeSerialize (est : String → ℕ) (root : CodeNode) (detail : DetailLevel)
    (maxDepth : Option ℕ) (tokenLimit : Option ℤ) : String :=
  String.intercalate "\n" (treeNode est detail maxDepth root [true] tokenLimit).1

/-! ### Compact serializer (`serializers/compact.py`) -/

mutual

def cpNode (est : String → ℕ) (detail : DetailLevel) (maxDepth : Option ℕ)
    (node : CodeNode) (pfx : String) (remaining : Option ℤ) :
    List String × ℤ :=
  if ¬ shouldIncludeNode node (pfx.length / 2) maxDepth then ([], 0) else
  let line : String :=
    match node.node_type with
    | .DIRECTORY => pfx ++ node.name ++ "/"
    | .FILE => pfx ++ node.name
    | _ =>
        if detail ≠ DetailLevel.STRUCTURE ∧ strTruthy node.signature then
          pfx ++ sigCompact (node.signature.getD "")
        else pfx ++ node.name
  let used : ℤ := (est line : ℤ)
  match remaining with
  | some r =>
      if r - used ≤ 0 then ([], used)
      else
        let res := cpKids est detail maxDepth (sortChildren node.children)
          (pfx ++ "  ") (some (r - used))
        (line :: res.1, used + res.2)
  | none =>
      let res := cpKids est detail maxDepth (sortChildren node.children)
        (pfx ++ "  ") none
      (line :: res.1, used + res.2)
termination_by sizeOf node
decreasing_by
  all_goals rw [sizeOf_sortChildren]; exact sizeOf_children_lt node

def cpKids (est : String → ℕ) (detail : DetailLevel) (maxDepth : Option ℕ) :
    List CodeNode → String → Option ℤ → List String × ℤ
  | [], _, _ => ([], 0)
  | c :: rest, pfx, remaining =>
      let r1 := cpNode est detail maxDepth c pfx remaining
      match remaining with
      | some r =>
          if r - r1.2 ≤ 0 then (r1.1, r1.2)
          else
            let r2 := cpKids est detail maxDepth rest pfx (some (r - r1.2))
            (r1.1 ++ r2.1, r1.2 + r2.2)
      | none =>
          let r2 := cpKids est detail maxDepth rest pfx none
          (r1.1 ++ r2.1, r1.2 + r2.2)
termination_by l => sizeOf l
decreasing_by
  all_goals simp only [List.cons.sizeOf_spec]; omega

end

/-- `CompactSerializer.serialize`. -/
def cpSerialize (est : String → ℕ) (root : CodeNode) (detail : DetailLevel)
    (maxDepth : Option ℕ) (tokenLimit : Option ℤ) : String :=
  String.intercalate "\n" (cpNode est detail maxDepth root "" tokenLimit).1

/-! ### Markdown serializer (`serializers/markdown.py`)

`MarkdownSerializer._serialize_node` appends the node header *before* any
budget check; `remaining_tokens` is only consulted (and only decremented)
inside the directory-children loop and in the final `details` guard. -/

/-- The markdown header line for a node at `depth`. -/
def mdHeader (node : CodeNode) (depth : ℕ) : String :=
  let pfx : String := String.mk (List.replicate (depth + 1) '#') ++ " "
  match node.node_type with
  | .DIRECTORY => pfx ++ "📁 " ++ node.name ++ "/"
  | .FILE => pfx ++ "📄 " ++ node.name
  | .CLASS => pfx ++ "🔷 " ++ node.name
  | .FUNCTION => pfx ++ "🔸 " ++ node.name
  | .METHOD => pfx ++ "🔸 " ++ node.name
  | .VARIABLE => pfx ++ "📎 " ++ node.name

/-- The lines appended by the `node.node_type == NodeType.FILE and
node.children` loop: a `{prefix}# {child.name}` header per sorted child, plus
a python block when the child has a signature.  No budget check is performed
in this loop. -/
def mdFileChildLines (node : CodeNode) (depth : ℕ) : List String :=
  let pfx : String := String.mk (List.replicate (depth + 1) '#') ++ " "
  if node.node_type = NodeType.FILE ∧ node.children.isEmpty = false then
    (sortChildren node.children).flatMap (fun c =>
      (pfx ++ "# " ++ c.name) ::
        (if strTruthy c.signature then [pyBlock (c.signature.getD "")] else []))
  else []

/-- The `details` list of `MarkdownSerializer._serialize_node`. -/
def mdDetails (node : CodeNode) (detail : DetailLevel) : List String :=
  (if strTruthy node.signature then [pyBlock (node.signature.getD "")] else []) ++
  (if detail = DetailLevel.DOCSTRINGS ∧ strTruthy node.docstring then
      [pyBlock (node.docstring.getD "")] else []) ++
  (if detail = DetailLevel.FULL_CODE ∧ strTruthy node.content then
      [pyBlock (node.content.getD "")] else [])

mutual

def mdNode (est : String → ℕ) (detail : DetailLevel) (maxDepth : Option ℕ)
    (node : CodeNode) (depth : ℕ) (remaining : Option ℤ) :
    List String × ℤ :=
  if ¬ mdShouldIncludeNode node depth maxDepth then ([], 0) else
  let header := mdHeader node depth
  let used : ℤ := (est header : ℤ)
  if node.node_type = NodeType.DIRECTORY then
    let res := mdKids est detail maxDepth (sortChildren node.children)
      (depth + 1) remaining
    (header :: res.1, used + res.2)
  else if detail ≠ DetailLevel.STRUCTURE then
    let fileLines := mdFileChildLines node depth
    let used' : ℤ := used + ((fileLines.map (fun s => (est s : ℤ))).sum)
    let details := mdDetails node detail
    if details ≠ [] then
      let detailText := String.intercalate "\n" details
      if remaining.getD (est detailText) ≥ (est detailText : ℤ) then
        (header :: fileLines ++ [detailText], used' + (est detailText : ℤ))
      else
        (header :: fileLines, used')
    else
      (header :: fileLines, used')
  else
    ([header], used)
termination_by sizeOf node
decreasing_by
  all_goals rw [sizeOf_sortChildren]; exact sizeOf_children_lt node

def mdKids (est : String → ℕ) (detail : DetailLevel) (maxDepth : Option ℕ) :
    List CodeNode → ℕ → Option ℤ → List String × ℤ
  | [], _, _ => ([], 0)
  | c :: rest, depth, remaining =>
      let r1 := mdNode est detail maxDepth c depth remaining
      match remaining with
      | some r =>
          if r - r1.2 ≤ 0 then (r1.1, r1.2)
          else
            let r2 := mdKids est detail maxDepth rest depth (some (r - r1.2))
            (r1.1 ++ r2.1, r1.2 + r2.2)
      | none =>
          let r2 := mdKids est detail maxDepth rest depth none
          (r1.1 ++ r2.1, r1.2 + r2.2)
termination_by l => sizeOf l
decreasing_by
  all_goals simp only [List.cons.sizeOf_spec]; omega

end

/-- `MarkdownSerializer.serialize`. -/
def mdSerialize (est : String → ℕ) (root : CodeNode) (detail : DetailLevel)
    (maxDepth : Option ℕ) (tokenLimit : Option ℤ) : String :=
  String.intercalate "\n" (mdNode est detail maxDepth root 0 tokenLimit).1

/-! ### Graph (`importance/graph.py`)

`RustworkxGraph` wraps the external `rustworkx.PyDiGraph`, which is modelled
first.  The repository never removes nodes or edges, so node indices are the
consecutive naturals `0, 1, …` and edges are kept in insertion order. -/

/-- Model of `rustworkx.PyDiGraph`.  `add_edge` on a `PyDiGraph` always
appends a fresh edge: the class is a multigraph by default, so a repeated
`add_edge` between the same pair of indices creates a *parallel* edge rather
than updating or accumulating the existing one. -/
structure PyDiGraph where
  nodeCount : ℕ
  edges : List (ℕ × ℕ × ℚ)
deriving Repr, DecidableEq

def PyDiGraph.empty : PyDiGraph := ⟨0, []⟩

/-- `rx.PyDiGraph.add_node`: the new graph together with the fresh index. -/
def PyDiGraph.addNode (g : PyDiGraph) : PyDiGraph × ℕ :=
  (⟨g.nodeCount + 1, g.edges⟩, g.nodeCount)

/-- `rx.PyDiGraph.add_edge`: always appends a new (possibly parallel) edge. -/
def PyDiGraph.addEdge (g : PyDiGraph) (i j : ℕ) (w : ℚ) : PyDiGraph :=
  ⟨g.nodeCount, g.edges ++ [(i, j, w)]⟩

/-- `rx.PyDiGraph.in_edges idx`: the `(source, target, weight)` triples with
target `idx`.  rustworkx iterates a node's edges most-recently-added first;
only the length and the multiset of sources matter to the code below. -/
def PyDiGraph.inEdges (g : PyDiGraph) (idx : ℕ) : List (ℕ × ℕ × ℚ) :=
  (g.edges.filter (fun e => e.2.1 == idx)).reverse

/-- `rx.PyDiGraph.out_edges idx`. -/
def PyDiGraph.outEdges (g : PyDiGraph) (idx : ℕ) : List (ℕ × ℕ × ℚ) :=
  (g.edges.filter (fun e => e.1 == idx)).reverse

/-- `RustworkxGraph`: a `PyDiGraph` plus the `node_map : dict[str, int]`
(insertion-ordered, keys unique by construction). -/
structure RustworkxGraph where
  graph : PyDiGraph
  node_map : List (String × ℕ)
deriving Repr, DecidableEq

def RustworkxGraph.empty : RustworkxGraph := ⟨PyDiGraph.empty, []⟩

/-- The keys of `node_map`, in insertion order.  `get_nodes` returns these as
a Python `set`; where the code iterates over that set the enumeration order
is taken as a parameter (see `scoreEnum`). -/
def RustworkxGraph.nodesList (g : RustworkxGraph) : List String :=
  g.node_map.map Prod.fst

/-- `RustworkxGraph.get_node_index`.  Python raises `KeyError` for an absent
id; every call site below only passes present ids, so the `0` default is
never observed. -/
def RustworkxGraph.lookupIdx (g : RustworkxGraph) (node_id : String) : ℕ :=
  ((g.node_map.find? (fun p => p.1 == node_id)).map Prod.snd).getD 0

/-- `next(k for k, v in self.node_map.items() if v == index)`: the first key
mapped to `index` (the map is injective, so it is the only one). -/
def RustworkxGraph.indexName (g : RustworkxGraph) (idx : ℕ) : String :=
  ((g.node_map.find? (fun p => p.2 == idx)).map Prod.fst).getD ""

/-- `RustworkxGraph.add_node`. -/
def RustworkxGraph.add_node (g : RustworkxGraph) (node_id : String) :
    RustworkxGraph :=
  if g.nodesList.contains node_id then g
  else
    let p := g.graph.addNode
    ⟨p.1, g.node_map ++ [(node_id, p.2)]⟩

/-- `RustworkxGraph.add_edge`: ensures both endpoints exist, then delegates to
`PyDiGraph.add_edge` (which appends a parallel edge on repetition). -/
def RustworkxGraph.add_edge (g : RustworkxGraph) (from_id to_id : String)
    (weight : ℚ) : RustworkxGraph :=
  let g2 := (g.add_node from_id).add_node to_id
  ⟨g2.graph.addEdge (g2.lookupIdx from_id) (g2.lookupIdx to_id) weight,
    g2.node_map⟩

/-- `edges[target_id] = weight` on a Python dict: update in place if the key
exists, else append. -/
def dictSet (d : List (String × ℚ)) (k : String) (v : ℚ) : List (String × ℚ) :=
  if d.any (fun p => p.1 == k) then
    d.map (fun p => if p.1 == k then (k, v) else p)
  else d ++ [(k, v)]

/-- `RustworkxGraph.get_edges`: `{}` for an absent node, otherwise the dict
built from the node's outgoing edges (a later parallel edge to the same
target overwrites the entry, it is not accumulated). -/
def RustworkxGraph.get_edges (g : RustworkxGraph) (node_id : String) :
    List (String × ℚ) :=
  if g.nodesList.contains node_id then
    (g.graph.outEdges (g.lookupIdx node_id)).foldl
      (fun d e => dictSet d (g.indexName e.2.1) e.2.2) []
  else []

/-! ### Scoring (`importance/scoring.py`) -/

/-- The constructor arguments of `ReferenceScorer.__init__`. -/
structure ScorerParams where
  ref_weight : ℚ
  outref_weight : ℚ
  important_ref_boost : ℚ
  distance_decay : ℚ
deriving Repr, DecidableEq

/-- The default weights of `ReferenceScorer`. -/
def defaultScorer : ScorerParams :=
  ⟨1, 1 / 2, 2, 1 / 2⟩

/-- One relaxation step of an edge for the shortest-path state: each entry is
`some (weight distance, hop count)` for a vertex with a tentative path from
the source, `none` otherwise. -/
def relaxEdge (st : List (Option (ℚ × ℕ))) (e : ℕ × ℕ × ℚ) :
    List (Option (ℚ × ℕ)) :=
  match st.getD e.1 none with
  | none => st
  | some du =>
      let cand : ℚ × ℕ := (du.1 + e.2.2, du.2 + 1)
      let better : Bool :=
        match st.getD e.2.1 none with
        | none => true
        | some dv =>
            decide (cand.1 < dv.1) ||
              (decide (cand.1 = dv.1) && decide (cand.2 < dv.2))
      if better then st.set e.2.1 (some cand) else st

/-- Fixed-point relaxation (`nodeCount` rounds over all edges). -/
def shortestState (g : PyDiGraph) (src : ℕ) : List (Option (ℚ × ℕ)) :=
  let init := (List.range g.nodeCount).map
    (fun i => if i = src then some ((0 : ℚ), 0) else none)
  (List.range g.nodeCount).foldl (fun st _ => g.edges.foldl relaxEdge st) init

/-- Model of `rx.dijkstra_shortest_paths(rx_graph, start_idx, weight_fn=float)`
as consumed by `ReferenceScorer._calculate_distance_scores`: for a target `t`
reachable from `src`, the hop count `len(path) - 1` of a minimum-weight path;
`none` for unreachable targets and for the source itself (rustworkx does not
report the trivial path of the source).  Among equal-weight paths the fewest
hops are taken; all edge weights produced by this repository are `1.0`, for
which minimum weight and minimum hops coincide and the count is unambiguous. -/
def dijkstraHops (g : PyDiGraph) (src t : ℕ) : Option ℕ :=
  if t = src then none
  else ((shortestState g src).getD t none).map Prod.snd

/-- The `important_refs` count: in-edges whose source vertex id belongs to
`important_nodes`. -/
def importantRefsCount (g : RustworkxGraph) (important : List String)
    (idx : ℕ) : ℕ :=
  ((g.graph.inEdges idx).filter
    (fun e => important.contains (g.indexName e.1))).length

/-- The distance term a vertex receives: `decay ** distance` summed over the
important sources it is reachable from, in the enumeration order of the
(filtered) important set. -/
def distScore (p : ScorerParams) (g : RustworkxGraph)
    (important : List String) (node_id : String) : ℚ :=
  (important.map (fun s =>
    match dijkstraHops g.graph (g.lookupIdx s) (g.lookupIdx node_id) with
    | some h => p.distance_decay ^ h
    | none => 0)).sum

/-- The raw (pre-normalization) score of one vertex in
`ReferenceScorer.score`: reference counts (plus the important-source boost),
then the optional multiplicative weight, then the distance term.
`important` and `weights` are expected already filtered to graph vertices. -/
def rawScore (p : ScorerParams) (g : RustworkxGraph)
    (important : List String) (weights : List (String × ℚ))
    (node_id : String) : ℚ :=
  let idx := g.lookupIdx node_id
  let base : ℚ :=
    ((g.graph.inEdges idx).length : ℚ) * p.ref_weight
      + (if important.isEmpty = false then
          (importantRefsCount g important idx : ℚ) * p.important_ref_boost
        else 0)
      + ((g.graph.outEdges idx).length : ℚ) * p.outref_weight
  let withW : ℚ :=
    match weights.find? (fun q => q.1 == node_id) with
    | some q => base * q.2
    | none => base
  withW + (if important.isEmpty = false then distScore p g important node_id else 0)

/-- The maximum of the scores dict's values (`max(scores.values())`; only
used on non-empty input). -/
def maxScore (scores : List (String × ℚ)) : ℚ :=
  match scores with
  | [] => 0
  | q :: rest => rest.foldl (fun m r => max m r.2) q.2

/-- `GraphScorer._normalize_scores`. -/
def normalizeScores (scores : List (String × ℚ)) : List (String × ℚ) :=
  if scores.isEmpty then []
  else if maxScore scores ≤ 0 then scores.map (fun q => (q.1, (0 : ℚ)))
  else scores.map (fun q => (q.1, q.2 / maxScore scores))

/-- `ReferenceScorer.score`, with the enumeration order of the two Python
sets made explicit: `nodesOrder` is the order in which
`for node_id in graph.get_nodes()` yields the vertex set, and the order of
`important_nodes` is the order the (already arbitrary-ordered) caller set is
iterated in.  After the first-line filtering no `KeyError` can occur, so the
`try/except KeyError` around the distance computation is dead and the
function is total. -/
def scoreEnum (p : ScorerParams) (g : RustworkxGraph)
    (nodesOrder : List String) (important_nodes : List String)
    (weights : List (String × ℚ)) : List (String × ℚ) :=
  let important := important_nodes.filter (fun n => g.nodesList.contains n)
  let weightsF := weights.filter (fun q => g.nodesList.contains q.1)
  normalizeScores (nodesOrder.map (fun id => (id, rawScore p g important weightsF id)))

/-- `ReferenceScorer.score` with the canonical (insertion-order) enumeration
of the vertex set. -/
def score (p : ScorerParams) (g : RustworkxGraph)
    (important_nodes : List String) (weights : List (String × ℚ)) :
    List (String × ℚ) :=
  scoreEnum p g g.nodesList important_nodes weights

/-! ## Claim theorems -/

/-- The graph obtained by calling `add_edge("a", "b", 1.0)` twice. -/
def doubleEdgeGraph : RustworkxGraph :=
  (RustworkxGraph.empty.add_edge "a" "b" 1).add_edge "a" "b" 1

/-- C3, counterexample: after two calls `add_edge(a, b, 1.0)` the graph does
*not* hold a single edge `a -> b` of weight `2.0`: it holds two parallel
edges, and `get_edges` reports weight `1.0` for the pair. -/
theorem C3_counterexample :
    ¬(doubleEdgeGraph.graph.edges.length = 1 ∧
      doubleEdgeGraph.get_edges "a" = [("b", 2)]) := by
  decide

/-- C3 (amended): two `add_edge(a, b, 1.0)` calls on the reference graph
create two *parallel* edges of weight `1.0` each — `rustworkx`'s `add_edge`
never accumulates weight.  `get_edges` then reports a single entry for `b`
of weight `1.0` (its dict keys edges by target, overwriting rather than
summing), while the in-degree that the scorer consumes counts both parallel
edges. -/
theorem C3_parallel_edges :
    doubleEdgeGraph.graph.edges = [(0, 1, 1), (0, 1, 1)] ∧
    doubleEdgeGraph.get_edges "a" = [("b", 1)] ∧
    (doubleEdgeGraph.graph.inEdges 1).length = 2 := by
  decide

/-- C10: `get_edges` on a node id absent from the graph returns the empty
mapping (no exception), and on a present node with no outgoing edges it also
returns the empty mapping. -/
theorem C10_get_edges_total (g : RustworkxGraph) (node_id : String) :
    (g.nodesList.contains node_id = false → g.get_edges node_id = []) ∧
    (g.nodesList.contains node_id = true →
      g.graph.outEdges (g.lookupIdx node_id) = [] →
      g.get_edges node_id = []) := by
  constructor
  · intro h
    rw [RustworkxGraph.get_edges, if_neg (by simpa using h)]
  · intro h1 h2
    rw [RustworkxGraph.get_edges, if_pos h1, h2]
    rfl

/-- C10, witness: on the one-edge graph `a -> b`, `get_edges` of the absent
id `"nonexistent"` and of the sink `"b"` are both empty. -/
theorem C10_get_edges_total_witness :
    (RustworkxGraph.empty.add_edge "a" "b" 1).get_edges "nonexistent" = [] ∧
    (RustworkxGraph.empty.add_edge "a" "b" 1).get_edges "b" = [] :=
  ⟨(C10_get_edges_total (RustworkxGraph.empty.add_edge "a" "b" 1)
      "nonexistent").1 (by decide),
   (C10_get_edges_total (RustworkxGraph.empty.add_edge "a" "b" 1)
      "b").2 (by decide) (by decide)⟩


/-- The example graph of the spec: one reference edge `h -> f` and the
isolated vertex `g`. -/
def hfgGraph : RustworkxGraph :=
  (RustworkxGraph.empty.add_edge "h" "f" 1).add_node "g"

/-- C7: with default parameters and neither important nodes nor weights, the
raw (pre-normalization) score of every vertex is
`indegree * 1.0 + outdegree * 0.5`; on the graph with the single edge
`h -> f` and isolated `g`, the normalized scores are `f = 1.0`, `h = 0.5`,
`g = 0.0`. -/
theorem C7_reference_scorer_defaults :
    (∀ (g : RustworkxGraph) (node_id : String),
      rawScore defaultScorer g [] [] node_id =
        ((g.graph.inEdges (g.lookupIdx node_id)).length : ℚ) * 1 +
          ((g.graph.outEdges (g.lookupIdx node_id)).length : ℚ) * (1 / 2)) ∧
    score defaultScorer hfgGraph [] [] = [("h", 1 / 2), ("f", 1), ("g", 0)] := by
  constructor
  · intro g node_id
    simp [rawScore, defaultScorer]
  · have hg : hfgGraph =
        ⟨⟨3, [(0, 1, 1)]⟩, [("h", 0), ("f", 1), ("g", 2)]⟩ := by decide
    rw [hg]
    simp [score, scoreEnum, normalizeScores, maxScore, rawScore,
      RustworkxGraph.nodesList, RustworkxGraph.lookupIdx, PyDiGraph.inEdges,
      PyDiGraph.outEdges, defaultScorer, List.filter, List.find?, List.foldl,
      List.map, importantRefsCount]
    norm_num

/-- C6: important sources that are not graph vertices are dropped by the
filter at the top of `ReferenceScorer.score`; they contribute nothing, while
every remaining source's distance contribution is computed as usual.  The
function is total (after the filtering no `KeyError` can occur, so the
`try/except` around the distance loop is dead code), so the scoring pass
never aborts. -/
theorem C6_missing_source_isolated (p : ScorerParams) (g : RustworkxGraph)
    (imp extras : List String) (w : List (String × ℚ))
    (h : ∀ s ∈ extras, g.nodesList.contains s = false) :
    score p g (imp ++ extras) w = score p g imp w := by
  have hextras : extras.filter (fun n => g.nodesList.contains n) = [] := by
    rw [List.filter_eq_nil_iff]
    intro a ha
    simpa using h a ha
  simp only [score, scoreEnum]
  rw [List.filter_append, hextras, List.append_nil]

/-- C6, witness: on the `h -> f` graph, scoring with the focus set
`{f, ghost}` (where `ghost` is absent) equals scoring with `{f}` alone. -/
theorem C6_missing_source_isolated_witness :
    (∀ s ∈ ["ghost"], hfgGraph.nodesList.contains s = false) ∧
    score defaultScorer hfgGraph (["f"] ++ ["ghost"]) [] =
      score defaultScorer hfgGraph ["f"] [] :=
  ⟨by decide,
   C6_missing_source_isolated defaultScorer hfgGraph ["f"] ["ghost"] []
     (by decide)⟩


/-! ### Facts about `maxScore` (for the normalization claim) -/

theorem foldl_max_bounds (l : List (String × ℚ)) (b : ℚ) :
    b ≤ l.foldl (fun m r => max m r.2) b ∧
      ∀ q ∈ l, q.2 ≤ l.foldl (fun m r => max m r.2) b := by
  induction l generalizing b with
  | nil => exact ⟨le_refl b, by simp⟩
  | cons x xs ih =>
      refine ⟨le_trans (le_max_left b x.2) (ih (max b x.2)).1, ?_⟩
      intro q hq
      rcases List.mem_cons.1 hq with hq | hq
      · subst hq
        exact le_trans (le_max_right b q.2) (ih (max b q.2)).1
      · exact (ih (max b x.2)).2 q hq

theorem foldl_max_attained (l : List (String × ℚ)) (b : ℚ) :
    l.foldl (fun m r => max m r.2) b = b ∨
      ∃ q ∈ l, l.foldl (fun m r => max m r.2) b = q.2 := by
  induction l generalizing b with
  | nil => exact Or.inl rfl
  | cons x xs ih =>
      rcases ih (max b x.2) with h | ⟨q, hq, hv⟩
      · rcases max_choice b x.2 with hm | hm
        · exact Or.inl (by simpa [hm] using h)
        · exact Or.inr ⟨x, List.mem_cons_self x xs, by simpa [hm] using h⟩
      · exact Or.inr ⟨q, List.mem_cons_of_mem x hq, hv⟩

theorem maxScore_ub {scores : List (String × ℚ)} {q : String × ℚ}
    (hq : q ∈ scores) : q.2 ≤ maxScore scores := by
  cases scores with
  | nil => cases hq
  | cons x xs =>
      rcases List.mem_cons.1 hq with h | h
      · subst h
        exact (foldl_max_bounds xs q.2).1
      · exact (foldl_max_bounds xs x.2).2 q h

theorem maxScore_attained {scores : List (String × ℚ)} (h : scores ≠ []) :
    ∃ q ∈ scores, q.2 = maxScore scores := by
  cases scores with
  | nil => exact absurd rfl h
  | cons x xs =>
      rcases foldl_max_attained xs x.2 with hv | ⟨q, hq, hv⟩
      · exact ⟨x, List.mem_cons_self x xs, by simp [maxScore, hv]⟩
      · exact ⟨q, List.mem_cons_of_mem x hq, by simp [maxScore, hv]⟩

/-- C4 (amended): for a non-empty scores dict, `_normalize_scores` returns
all-zero when the maximum raw score is `≤ 0`; when the maximum is positive,
every returned score is `≤ 1` and at least one equals `1.0`, and — provided
all raw scores are non-negative, as they are whenever no negative per-node
weights are supplied — every returned score lies in `[0,1]`.  Empty input
yields empty output.  (A negative raw score survives normalization as a
negative returned score, so without the non-negativity proviso not all
returned scores lie in `[0,1]`; see the counterexample.) -/
theorem C4_normalization (scores : List (String × ℚ)) :
    normalizeScores [] = ([] : List (String × ℚ)) ∧
    (scores ≠ [] →
      (maxScore scores ≤ 0 → ∀ q ∈ normalizeScores scores, q.2 = 0) ∧
      (0 < maxScore scores →
        (∀ q ∈ normalizeScores scores, q.2 ≤ 1) ∧
        (∃ q ∈ normalizeScores scores, q.2 = 1) ∧
        ((∀ q ∈ scores, 0 ≤ q.2) →
          ∀ q ∈ normalizeScores scores, 0 ≤ q.2 ∧ q.2 ≤ 1))) := by
  refine ⟨rfl, ?_⟩
  intro hne
  have hie : scores.isEmpty = false := by
    cases scores with
    | nil => exact absurd rfl hne
    | cons x xs => rfl
  constructor
  · intro hmax q hq
    rw [normalizeScores, if_neg (by simp [hie]), if_pos hmax] at hq
    obtain ⟨p, _, rfl⟩ := List.mem_map.1 hq
    rfl
  · intro hpos
    have hne0 : maxScore scores ≠ 0 := ne_of_gt hpos
    have hnorm : normalizeScores scores =
        scores.map (fun q => (q.1, q.2 / maxScore scores)) := by
      rw [normalizeScores, if_neg (by simp [hie]), if_neg (not_le.mpr hpos)]
    refine ⟨?_, ?_, ?_⟩
    · intro q hq
      rw [hnorm] at hq
      obtain ⟨p, hp, rfl⟩ := List.mem_map.1 hq
      exact (div_le_one hpos).mpr (maxScore_ub hp)
    · obtain ⟨p, hp, hpv⟩ := maxScore_attained hne
      refine ⟨(p.1, p.2 / maxScore scores), ?_, ?_⟩
      · rw [hnorm]
        exact List.mem_map.2 ⟨p, hp, rfl⟩
      · show p.2 / maxScore scores = 1
        rw [hpv]
        exact div_self hne0
    · intro hnn q hq
      rw [hnorm] at hq
      obtain ⟨p, hp, rfl⟩ := List.mem_map.1 hq
      exact ⟨div_nonneg (hnn p hp) hpos.le,
        (div_le_one hpos).mpr (maxScore_ub hp)⟩

/-- C4, witness: the amended statement applied to the concrete raw scores
`{a: 2, b: 1}` (positive maximum) and `{x: -2}` (non-positive maximum). -/
theorem C4_normalization_witness :
    (∀ q ∈ normalizeScores [("a", (2 : ℚ)), ("b", 1)], q.2 ≤ 1) ∧
    (∃ q ∈ normalizeScores [("a", (2 : ℚ)), ("b", 1)], q.2 = 1) ∧
    (∀ q ∈ normalizeScores [("a", (2 : ℚ)), ("b", 1)], 0 ≤ q.2 ∧ q.2 ≤ 1) ∧
    (∀ q ∈ normalizeScores [("x", (-2 : ℚ))], q.2 = 0) := by
  have h1 := (C4_normalization [("a", (2 : ℚ)), ("b", 1)]).2 (by simp)
  have h2 := h1.2 (by norm_num [maxScore, List.foldl])
  have h3 := ((C4_normalization [("x", (-2 : ℚ))]).2 (by simp)).1
    (by norm_num [maxScore, List.foldl])
  exact ⟨h2.1, h2.2.1,
    h2.2.2 (by intro q hq; simp only [List.mem_cons, List.not_mem_nil,
      or_false] at hq; rcases hq with h | h <;> subst h <;> norm_num), h3⟩

/-- C4, counterexample: a scorer output with a score outside `[0,1]`.  With
the user-supplied weight `-1.0` on `a` in the one-edge graph `a -> b`, the
raw scores are `{a: -0.5, b: 1}` and the returned normalized scores are
`{a: -0.5, b: 1.0}` — `-0.5` does not lie in `[0,1]`, refuting the claim for
arbitrary scorer outputs. -/
theorem C4_counterexample :
    score defaultScorer (RustworkxGraph.empty.add_edge "a" "b" 1) []
      [("a", -1)] = [("a", -(1 / 2)), ("b", 1)] ∧
    ¬((0 : ℚ) ≤ -(1 / 2)) := by
  constructor
  · have hg : RustworkxGraph.empty.add_edge "a" "b" 1 =
        ⟨⟨2, [(0, 1, 1)]⟩, [("a", 0), ("b", 1)]⟩ := by decide
    rw [hg]
    simp [score, scoreEnum, normalizeScores, maxScore, rawScore,
      RustworkxGraph.nodesList, RustworkxGraph.lookupIdx, PyDiGraph.inEdges,
      PyDiGraph.outEdges, defaultScorer, List.filter, List.find?, List.foldl,
      List.map, importantRefsCount]
    norm_num
  · norm_num

/-! ### Serializer claims -/

theorem treeNode_zero_budget (est : String → ℕ) (detail : DetailLevel)
    (maxDepth : Option ℕ) (node : CodeNode) (isLast : List Bool) :
    (treeNode est detail maxDepth node isLast (some 0)).1 = [] := by
  rw [treeNode]
  split
  · rfl
  · simp [sub_nonpos]

theorem cpNode_zero_budget (est : String → ℕ) (detail : DetailLevel)
    (maxDepth : Option ℕ) (node : CodeNode) (pfx : String) :
    (cpNode est detail maxDepth node pfx (some 0)).1 = [] := by
  rw [cpNode]
  split
  · rfl
  · simp [sub_nonpos]

/-- C1 (amended): with `token_limit=0` the tree and compact serializers
return the empty string on every tree — the node's own line is costed and
the budget check fires *before* the line is appended.  The markdown
serializer instead appends each header before consulting the budget, so with
`token_limit=0` it emits the root header and can emit descendant headers
(always whole lines); see the counterexample. -/
theorem C1_zero_budget (est : String → ℕ) (root : CodeNode)
    (detail : DetailLevel) (maxDepth : Option ℕ) :
    treeSerialize est root detail maxDepth (some 0) = "" ∧
    cpSerialize est root detail maxDepth (some 0) = "" := by
  constructor
  · rw [treeSerialize, treeNode_zero_budget]
    rfl
  · rw [cpSerialize, cpNode_zero_budget]
    rfl

/-- A two-node tree: a directory root holding one file. -/
def c1Root : CodeNode :=
  .mk "root" .DIRECTORY "." 0 none none none
    [.mk "a.py" .FILE "a.py" 0 none none none []]

/-- C1, counterexample: the markdown serializer with `token_limit=0` on the
two-node tree emits the root header *and* the child's header — deeper
content than a single root header line. -/
theorem C1_counterexample :
    mdSerialize String.length c1Root .STRUCTURE none (some 0) =
      "# 📁 root/\n## 📄 a.py" ∧
    mdSerialize String.length c1Root .STRUCTURE none (some 0) ≠ "" ∧
    mdSerialize String.length c1Root .STRUCTURE none (some 0) ≠
      "# 📁 root/" := by
  have h : mdSerialize String.length c1Root .STRUCTURE none (some 0) =
      "# 📁 root/\n## 📄 a.py" := by
    simp [mdSerialize, mdNode, mdKids, mdHeader, mdShouldIncludeNode,
      maxDepthExceeded, mdFileChildLines, mdDetails, c1Root, sortChildren,
      CodeNode.node_type, CodeNode.name, CodeNode.children, sub_nonpos]
    rfl
  exact ⟨h, by rw [h]; decide, by rw [h]; decide⟩

/-- C2, counterexample: the *base* inclusion predicate — the one the tree
and compact serializers use — rejects a zero-importance `Directory` node at
depth 3, although the claim says every serializer's predicate always
includes Directory and File nodes. -/
theorem C2_counterexample :
    shouldIncludeNode (.mk "pkg" .DIRECTORY "pkg" 0 none none none [])
      3 none = false := by
  norm_num [shouldIncludeNode, maxDepthExceeded, HIGH_IMPORTANCE_THRESHOLD,
    LOW_IMPORTANCE_THRESHOLD, CodeNode.importance]

/-- C2 (amended): only the markdown serializer's predicate always includes
Directory/File nodes (within `max_depth` when set); the base predicate used
by the tree and compact serializers applies the importance thresholds to
every node type, so a Directory or File deeper than 2 with importance below
0.3 is excluded there.  For both predicates, importance above 0.7 includes
(within `max_depth`), and a non-Directory/File node deeper than 2 with
importance below 0.3 is excluded. -/
theorem C2_inclusion_predicate :
    (∀ (node : CodeNode) (d : ℕ) (maxD : Option ℕ),
      maxDepthExceeded maxD d = false →
      (node.node_type = NodeType.DIRECTORY ∨ node.node_type = NodeType.FILE) →
      mdShouldIncludeNode node d maxD = true) ∧
    (∀ (node : CodeNode) (d : ℕ) (maxD : Option ℕ),
      maxDepthExceeded maxD d = false →
      HIGH_IMPORTANCE_THRESHOLD < node.importance →
      shouldIncludeNode node d maxD = true ∧
        mdShouldIncludeNode node d maxD = true) ∧
    (∀ (node : CodeNode) (d : ℕ) (maxD : Option ℕ),
      2 < d → node.importance < LOW_IMPORTANCE_THRESHOLD →
      shouldIncludeNode node d maxD = false ∧
      (¬(node.node_type = NodeType.DIRECTORY ∨
          node.node_type = NodeType.FILE) →
        mdShouldIncludeNode node d maxD = false)) := by
  refine ⟨?_, ?_, ?_⟩
  · intro node d maxD hmd ht
    rw [mdShouldIncludeNode, if_neg (by simp [hmd]), if_pos ht]
  · intro node d maxD hmd hhi
    constructor
    · rw [shouldIncludeNode, if_neg (by simp [hmd]), if_pos hhi]
    · by_cases hdf : node.node_type = NodeType.DIRECTORY ∨
        node.node_type = NodeType.FILE
      · rw [mdShouldIncludeNode, if_neg (by simp [hmd]), if_pos hdf]
      · rw [mdShouldIncludeNode, if_neg (by simp [hmd]), if_neg hdf,
          if_pos hhi]
  · intro node d maxD hd hlow
    have hni : ¬(HIGH_IMPORTANCE_THRESHOLD < node.importance) := by
      rw [not_lt]
      refine le_of_lt (lt_trans hlow ?_)
      norm_num [LOW_IMPORTANCE_THRESHOLD, HIGH_IMPORTANCE_THRESHOLD]
    constructor
    · by_cases hmd : maxDepthExceeded maxD d = true
      · rw [shouldIncludeNode, if_pos hmd]
      · rw [shouldIncludeNode, if_neg hmd, if_neg hni]
        simp [hd, hlow]
    · intro hdf
      by_cases hmd : maxDepthExceeded maxD d = true
      · rw [mdShouldIncludeNode, if_pos hmd]
      · rw [mdShouldIncludeNode, if_neg hmd, if_neg hdf, if_neg hni]
        simp [hd, hlow]

/-- C2, witness: the amended statement at concrete nodes — a deep directory
under markdown, a high-importance function under both predicates, and a deep
low-importance variable excluded by both. -/
theorem C2_inclusion_predicate_witness :
    mdShouldIncludeNode (.mk "pkg" .DIRECTORY "pkg" 0 none none none [])
      5 none = true ∧
    shouldIncludeNode (.mk "f" .FUNCTION "a/f" (9 / 10) none none none [])
      9 none = true ∧
    mdShouldIncludeNode (.mk "f" .FUNCTION "a/f" (9 / 10) none none none [])
      9 none = true ∧
    shouldIncludeNode (.mk "v" .VARIABLE "a/v" (1 / 10) none none none [])
      3 none = false ∧
    mdShouldIncludeNode (.mk "v" .VARIABLE "a/v" (1 / 10) none none none [])
      3 none = false := by
  have hhi : HIGH_IMPORTANCE_THRESHOLD <
      (CodeNode.mk "f" .FUNCTION "a/f" (9 / 10) none none none
        []).importance := by
    norm_num [HIGH_IMPORTANCE_THRESHOLD, CodeNode.importance]
  have hlow : (CodeNode.mk "v" .VARIABLE "a/v" (1 / 10) none none none
      []).importance < LOW_IMPORTANCE_THRESHOLD := by
    norm_num [LOW_IMPORTANCE_THRESHOLD, CodeNode.importance]
  have h2 := C2_inclusion_predicate.2.1
    (.mk "f" .FUNCTION "a/f" (9 / 10) none none none []) 9 none rfl hhi
  have h3 := C2_inclusion_predicate.2.2
    (.mk "v" .VARIABLE "a/v" (1 / 10) none none none []) 3 none
    (by norm_num) hlow
  exact ⟨C2_inclusion_predicate.1
      (.mk "pkg" .DIRECTORY "pkg" 0 none none none []) 5 none rfl
      (Or.inl rfl),
    h2.1, h2.2, h3.1, h3.2 (by decide)⟩

/-- C9: in every serializer, a node the inclusion predicate rejects yields
no output lines at all (the whole subtree is omitted) and a `tokens_used` of
`0`, so it leaves the remaining budget untouched. -/
theorem C9_excluded_subtree_omitted (est : String → ℕ) (detail : DetailLevel)
    (maxD : Option ℕ) (node : CodeNode) (isLast : List Bool) (pfx : String)
    (depth : ℕ) (remaining : Option ℤ) :
    (shouldIncludeNode node (isLast.length - 1) maxD = false →
      treeNode est detail maxD node isLast remaining = ([], 0)) ∧
    (shouldIncludeNode node (pfx.length / 2) maxD = false →
      cpNode est detail maxD node pfx remaining = ([], 0)) ∧
    (mdShouldIncludeNode node depth maxD = false →
      mdNode est detail maxD node depth remaining = ([], 0)) := by
  refine ⟨?_, ?_, ?_⟩ <;> intro h
  · rw [treeNode, if_pos (by simp [h])]
  · rw [cpNode, if_pos (by simp [h])]
  · rw [mdNode, if_pos (by simp [h])]

/-- C9, witness: a zero-importance variable at depth 3 is rejected by both
predicates and serializing it yields `([], 0)` in all three serializers. -/
theorem C9_excluded_subtree_omitted_witness :
    shouldIncludeNode (.mk "v" .VARIABLE "a/v" 0 none none none [])
      3 none = false ∧
    treeNode String.length .SIGNATURES none
      (.mk "v" .VARIABLE "a/v" 0 none none none [])
      [true, false, false, true] none = ([], 0) ∧
    cpNode String.length .SIGNATURES none
      (.mk "v" .VARIABLE "a/v" 0 none none none []) "      " none = ([], 0) ∧
    mdShouldIncludeNode (.mk "v" .VARIABLE "a/v" 0 none none none [])
      3 none = false ∧
    mdNode String.length .SIGNATURES none
      (.mk "v" .VARIABLE "a/v" 0 none none none []) 3 none = ([], 0) := by
  have h1 : shouldIncludeNode (.mk "v" .VARIABLE "a/v" 0 none none none [])
      3 none = false := by
    norm_num [shouldIncludeNode, maxDepthExceeded, HIGH_IMPORTANCE_THRESHOLD,
      LOW_IMPORTANCE_THRESHOLD, CodeNode.importance]
  have h2 : mdShouldIncludeNode (.mk "v" .VARIABLE "a/v" 0 none none none [])
      3 none = false := by
    norm_num [mdShouldIncludeNode, maxDepthExceeded, HIGH_IMPORTANCE_THRESHOLD,
      LOW_IMPORTANCE_THRESHOLD, CodeNode.importance, CodeNode.node_type]
    exact ⟨by decide, by decide⟩
  have h := C9_excluded_subtree_omitted String.length .SIGNATURES none
    (.mk "v" .VARIABLE "a/v" 0 none none none [])
    [true, false, false, true] "      " 3 none
  exact ⟨h1, h.1 h1, h.2.1 h1, h2, h.2.2 h2⟩

theorem childLe_trans (a b c : CodeNode) (hab : childLe a b)
    (hbc : childLe b c) : childLe a c := by
  simp only [childLe, Bool.or_eq_true, Bool.and_eq_true,
    decide_eq_true_eq] at hab hbc ⊢
  rcases hab with h1 | ⟨h1, h1n⟩
  · rcases hbc with h2 | ⟨h2, h2n⟩
    · exact Or.inl (lt_trans h2 h1)
    · exact Or.inl (h2 ▸ h1)
  · rcases hbc with h2 | ⟨h2, h2n⟩
    · exact Or.inl (by rw [h1]; exact h2)
    · exact Or.inr ⟨h1.trans h2, le_trans h1n h2n⟩

theorem childLe_total (a b : CodeNode) : childLe a b || childLe b a := by
  simp only [childLe, Bool.or_eq_true, Bool.and_eq_true, decide_eq_true_eq]
  rcases lt_trichotomy a.importance b.importance with h | h | h
  · exact Or.inr (Or.inl h)
  · rcases le_total a.name b.name with hn | hn
    · exact Or.inl (Or.inr ⟨h, hn⟩)
    · exact Or.inr (Or.inr ⟨h.symm, hn⟩)
  · exact Or.inl (Or.inl h)

/-- C5: the children list every serializer iterates over —
`sorted(node.children.values(), key=lambda n: (-n.importance, n.name))`,
embedded as `sortChildren` — is a permutation of the children in descending
importance order, ties broken by ascending name: for any two positions `i ≤ j`
of the output, either the later child has strictly smaller importance, or
the importances are equal and the names are in ascending order.  This holds
for every tree and every assignment of importance scores. -/
theorem C5_children_order (l : List CodeNode) :
    (sortChildren l).Perm l ∧
    List.Pairwise (fun a b => b.importance < a.importance ∨
      (a.importance = b.importance ∧ a.name ≤ b.name)) (sortChildren l) := by
  refine ⟨List.mergeSort_perm l childLe, ?_⟩
  have hs := List.sorted_mergeSort childLe_trans childLe_total l
  exact hs.imp (fun {a b} h => by
    simpa [childLe, decide_eq_true_eq] using h)

end Reposcape
